import Mathlib

/-!
# Coinlinc contact relay (`server.js`)

A shallow embedding of `server.js`: the start-up check of the required
environment variables, the Express middleware chain, and the
`POST /api/contact` handler with its presence check, its `emailRegex`
shape check, the `mailOptions` it builds and its `catch` block.

JavaScript strings are modelled by Lean strings (sequences of Unicode
scalar values).  Every character that `emailRegex` distinguishes (`@`, `.`
and the `\s` class) lies in the Basic Multilingual Plane, so matching per
code point and per UTF-16 code unit agree.
-/

namespace Coinlinc

/-! ## JavaScript values -/

/-- A value that `express.json()` / `express.urlencoded()` can put in `req.body`,
or `undefined` for a property that is not there.  A number is either a safe integer
(`number`, magnitude at most `Number.MAX_SAFE_INTEGER`; `-0` is observed like `0`), or any
other number (`otherNumber`: a fraction, a larger magnitude or an infinity), which is never
zero and of which only the text that `Number::toString` gives is kept. -/
inductive JSValue where
  | undefined
  | null
  | bool (b : Bool)
  | number (n : Int) (safe : n.natAbs ≤ 9007199254740991)
  | otherNumber (text : String)
  | string (s : String)
  | array (xs : List JSValue)
  | object (props : List (String × JSValue))

/-- The value thrown by a failing operation; only `error.message` is read by the handler. -/
structure JSError where
  message : String

namespace JSValue

/-- ECMAScript `ToBoolean`, the test behind `!x`. -/
def toBoolean : JSValue → Bool
  | undefined => false
  | null => false
  | bool b => b
  | number n _ => n != 0
  | otherNumber _ => true
  | string s => s != ""
  | array _ => true
  | object _ => true

/-- Whether an object literal carries an own property `k`. -/
def hasOwn (k : String) : List (String × JSValue) → Bool
  | [] => false
  | (k', _) :: rest => k' == k || hasOwn k rest

/-- The `TypeError` of `OrdinaryToPrimitive` when neither `toString` nor `valueOf`
yields a primitive. -/
def cannotConvert : JSError := ⟨"Cannot convert object to primitive value"⟩

mutual
/-- ECMAScript `ToString`, as applied by a template literal and by `RegExp.prototype.test`.
A parsed object whose own `toString` member shadows `Object.prototype.toString` has no
callable conversion and throws. -/
def toStr : JSValue → Except JSError String
  | undefined => .ok "undefined"
  | null => .ok "null"
  | bool b => .ok (if b then "true" else "false")
  | number n _ => .ok (toString n)
  | otherNumber text => .ok text
  | string s => .ok s
  | array xs => joinStr xs
  | object props => if hasOwn "toString" props then .error cannotConvert else .ok "[object Object]"
/-- The text of `Array.prototype.join(",")`: `undefined` and `null` elements render empty. -/
def joinStr : List JSValue → Except JSError String
  | [] => .ok ""
  | x :: rest => do
      let a ← (match x with
        | undefined => .ok ""
        | null => .ok ""
        | v => toStr v)
      match rest with
      | [] => pure a
      | _ :: _ => do
        let b ← joinStr rest
        pure (a ++ "," ++ b)
end

/-- Test for `undefined`, the value `JSON.stringify` leaves out of an object. -/
def isUndefined : JSValue → Bool
  | undefined => true
  | _ => false

end JSValue

/-- The own properties of `req.body`, in order. -/
abbrev Body := List (String × JSValue)

/-- Property read `req.body[k]`: the value of the property, `undefined` when there is none. -/
def Body.get (body : Body) (k : String) : JSValue :=
  match body.lookup k with
  | some v => v
  | none => .undefined

/-- The process environment `process.env` after `dotenv` has loaded. -/
abbrev Env := String → Option String

/-- A `process.env[k]` read as a JavaScript value. -/
def Env.get (env : Env) (k : String) : JSValue :=
  match env k with
  | some v => .string v
  | none => .undefined

/-! ## Regular expressions -/

/-- The class `\s`: ECMAScript WhiteSpace and LineTerminator code points. -/
def isWhiteSpace (c : Char) : Bool :=
  let n := c.toNat
  n == 0x09 || n == 0x0A || n == 0x0B || n == 0x0C || n == 0x0D || n == 0x20 ||
  n == 0xA0 || n == 0x1680 || (0x2000 ≤ n && n ≤ 0x200A) || n == 0x2028 ||
  n == 0x2029 || n == 0x202F || n == 0x205F || n == 0x3000 || n == 0xFEFF

/-- A member of a bracketed character class. -/
inductive ClassItem where
  | space
  | char (c : Char)

/-- Whether a class member covers a character. -/
def ClassItem.covers : ClassItem → Char → Bool
  | .space, c => isWhiteSpace c
  | .char d, c => c == d

/-- A pattern atom consuming one character. -/
inductive Atom where
  | lit (c : Char)
  | negClass (items : List ClassItem)

/-- Whether an atom accepts a character. -/
def Atom.accepts : Atom → Char → Bool
  | .lit d, c => c == d
  | .negClass items, c => !(items.any (fun i => i.covers c))

/-- A term of a pattern: an assertion, an atom, or an atom under the greedy `+`. -/
inductive Term where
  | assertBegin
  | assertEnd
  | atom (a : Atom)
  | plus (a : Atom)

/-- A pattern is the sequence of its terms. -/
abbrev RegExp := List Term

/-- Greedy `a+` followed by the continuation `k`: consume one accepted character, then
first try to repeat, then the continuation. -/
def plusLoop (a : Atom) (k : Nat → List Char → Bool) : Nat → List Char → Bool
  | _, [] => false
  | i, c :: cs => a.accepts c && (plusLoop a k (i + 1) cs || k (i + 1) cs)

/-- Backtracking match of the terms at index `i`, where `cs` is the input from `i` on. -/
def matchTerms : RegExp → Nat → List Char → Bool
  | [], _, _ => true
  | .assertBegin :: ts, i, cs => i == 0 && matchTerms ts i cs
  | .assertEnd :: ts, i, cs => cs.isEmpty && matchTerms ts i cs
  | .atom a :: ts, i, cs =>
      match cs with
      | [] => false
      | c :: cs' => a.accepts c && matchTerms ts (i + 1) cs'
  | .plus a :: ts, i, cs => plusLoop a (fun j rest => matchTerms ts j rest) i cs

/-- The search loop of `RegExp.prototype.exec`: try a match at `i`, then at every later index. -/
def searchFrom (re : RegExp) : Nat → List Char → Bool
  | i, [] => matchTerms re i []
  | i, c :: cs => matchTerms re i (c :: cs) || searchFrom re (i + 1) cs

/-- The method `RegExp.prototype.test` of a pattern without flags, on a string. -/
def RegExp.test (re : RegExp) (s : String) : Bool :=
  searchFrom re 0 s.toList

/-- The class `[^\s@]`. -/
def notSpaceOrAt : Atom := .negClass [.space, .char '@']

/-- The pattern `/^[^\s@]+@[^\s@]+\.[^\s@]+$/`. -/
def emailRegex : RegExp :=
  [.assertBegin, .plus notSpaceOrAt, .atom (.lit '@'), .plus notSpaceOrAt,
   .atom (.lit '.'), .plus notSpaceOrAt, .assertEnd]

/-! ## Responses -/

/-- What a response carries: a JSON document (its members in order), a file sent from the
deployment directory, the error page of the default error handler, or nothing. -/
inductive ResponseBody where
  | json (members : List (String × JSValue))
  | file (name : String)
  | errorPage
  | empty

/-- An HTTP response: status code and payload. -/
structure Response where
  status : Nat
  body : ResponseBody

/-- The members `JSON.stringify` writes for an object: a property whose value is
`undefined` is left out. -/
def stringifyMembers (obj : List (String × JSValue)) : List (String × JSValue) :=
  obj.filter (fun kv => !kv.2.isUndefined)

/-- The call `res.status(status).json(obj)`. -/
def Response.json (status : Nat) (obj : List (String × JSValue)) : Response :=
  ⟨status, .json (stringifyMembers obj)⟩

/-- The call `res.status(status).sendFile(path.join(__dirname, name))`; the two HTML
documents are taken to exist in the deployment directory. -/
def Response.sendFile (status : Nat) (name : String) : Response :=
  ⟨status, .file name⟩

/-! ## The contact handler -/

/-- The argument of `transporter.sendMail`. -/
structure MailOptions where
  from_ : JSValue
  to_ : JSValue
  subject : String
  text : String
  html : String

/-- The object literal `mailOptions` (`from_` and `to_` are its `from` and `to`): every `${x}` of a
template literal applies `ToString` to `x`, in source order. -/
def mailOptions (env : Env) (name email profession message : JSValue) :
    Except JSError MailOptions := do
  let subject := "New Contact Form Submission from " ++ (← name.toStr)
  let text :=
    "\n                Name: " ++ (← name.toStr) ++
    "\n                Email: " ++ (← email.toStr) ++
    "\n                Profession: " ++ (← profession.toStr) ++
    "\n                Message: " ++ (← message.toStr) ++
    "\n            "
  let html :=
    "\n                <h3>New Contact Form Submission</h3>" ++
    "\n                <p><strong>Name:</strong> " ++ (← name.toStr) ++ "</p>" ++
    "\n                <p><strong>Email:</strong> " ++ (← email.toStr) ++ "</p>" ++
    "\n                <p><strong>Profession:</strong> " ++ (← profession.toStr) ++ "</p>" ++
    "\n                <p><strong>Message:</strong> " ++ (← message.toStr) ++ "</p>" ++
    "\n            "
  pure {
    from_ := env.get "EMAIL_USER"
    to_ := env.get "ADMIN_EMAIL"
    subject := subject
    text := text
    html := html }

/-- The body of the `try` block of the handler: the `sendMail` calls made, and either the
response sent or the value thrown.  `sendMail` is the mail transport: it resolves or
rejects with an error. -/
def tryBlock (env : Env) (sendMail : MailOptions → Except JSError Unit) (body : Body) :
    List MailOptions × Except JSError Response :=
  let name := body.get "name"
  let email := body.get "email"
  let profession := body.get "profession"
  let message := body.get "message"
  if !name.toBoolean || !email.toBoolean || !profession.toBoolean || !message.toBoolean then
    ([], .ok (Response.json 400
      [("success", .bool false), ("message", .string "Please fill in all fields")]))
  else
    match email.toStr with
    | .error e => ([], .error e)
    | .ok emailText =>
      if !emailRegex.test emailText then
        ([], .ok (Response.json 400
          [("success", .bool false), ("message", .string "Please enter a valid email address")]))
      else
        match mailOptions env name email profession message with
        | .error e => ([], .error e)
        | .ok opts =>
          match sendMail opts with
          | .error e => ([opts], .error e)
          | .ok _ =>
            ([opts], .ok (Response.json 200
              [("success", .bool true), ("message", .string "Message sent successfully")]))

/-- The `catch` block of the handler. -/
def catchBlock (env : Env) (error : JSError) : Response :=
  Response.json 500
    [("success", .bool false),
     ("message", .string "Failed to send message. Please try again later."),
     ("error", if env "NODE_ENV" = some "development" then .string error.message
               else .undefined)]

/-- What one request did: the response, and the `sendMail` calls in order. -/
structure Outcome where
  response : Response
  sent : List MailOptions

/-- The handler of `app.post('/api/contact', ...)`. -/
def postApiContact (env : Env) (sendMail : MailOptions → Except JSError Unit) (body : Body) :
    Outcome :=
  match tryBlock env sendMail body with
  | (sent, .ok res) => ⟨res, sent⟩
  | (sent, .error e) => ⟨catchBlock env e, sent⟩

/-! ## Start-up -/

/-- The constant `requiredEnvVars`. -/
def requiredEnvVars : List String := ["EMAIL_USER", "EMAIL_PASS", "ADMIN_EMAIL"]

/-- The constant `missingEnvVars`: `requiredEnvVars.filter(varName => !process.env[varName])`. -/
def missingEnvVars (env : Env) : List String :=
  requiredEnvVars.filter (fun varName => !(env.get varName).toBoolean)

/-- The constant `port`: `process.env.PORT || 3000`. -/
def port (env : Env) : JSValue :=
  if (env.get "PORT").toBoolean then env.get "PORT" else .number 3000 (by decide)

/-- What the top level of `server.js` does to the outside, in order. -/
inductive Effect where
  | consoleError (label : String) (names : List String)
  | exit (code : Nat)
  | consoleLog (label : String) (fields : List (String × JSValue))
  | createTransport (user pass : JSValue)
  | verify
  | listen (port : JSValue)

/-- The top level of `server.js` from the environment check to `app.listen`; `process.exit`
ends the run, so nothing follows it. -/
def startup (env : Env) : List Effect :=
  if (missingEnvVars env).length > 0 then
    [.consoleError "Missing required environment variables:" (missingEnvVars env), .exit 1]
  else
    [.consoleLog "Email Configuration:"
       [("user", env.get "EMAIL_USER"), ("adminEmail", env.get "ADMIN_EMAIL"),
        ("hasPassword", .bool (env.get "EMAIL_PASS").toBoolean)],
     .createTransport (env.get "EMAIL_USER") (env.get "EMAIL_PASS"),
     .verify,
     .listen (port env)]

/-! ## The middleware chain -/

/-- A request as Node hands it to Express: the method in upper case, the path without the
query string, and what `express.json()` / `express.urlencoded()` make of the body: the
decoded object, or the status of the parser's error.  Conditional and range headers are
not modelled. -/
structure Request where
  method : String
  path : String
  body : Except Nat Body

/-- Drop one trailing `/`. -/
def dropTrailingSlash : List Char → List Char
  | [] => []
  | ['/'] => []
  | c :: cs => c :: dropTrailingSlash cs

/-- Express's default path matching of a literal route: case-insensitive, with an optional
trailing slash. -/
def routeMatches (route path : String) : Bool :=
  dropTrailingSlash (path.toList.map Char.toLower) ==
    dropTrailingSlash (route.toList.map Char.toLower)

/-- A route registered with `app.get` also answers `HEAD`. -/
def isGet (method : String) : Bool := method == "GET" || method == "HEAD"

/-- The application: `cors`, the body parsers, `express.static(__dirname)`, the three
routes, and the final `app.use` fallback, in registration order.  `staticFile` is the
file `express.static` finds in the deployment directory for a request path, if any. -/
def app (staticFile : String → Option String) (env : Env)
    (sendMail : MailOptions → Except JSError Unit) (req : Request) : Outcome :=
  if req.method == "OPTIONS" then ⟨⟨204, .empty⟩, []⟩
  else
    match req.body with
    | .error status => ⟨⟨status, .errorPage⟩, []⟩
    | .ok body =>
      match (if isGet req.method then staticFile req.path else none) with
      | some name => ⟨Response.sendFile 200 name, []⟩
      | none =>
        if isGet req.method && routeMatches "/contact" req.path then
          ⟨Response.sendFile 200 "contact.html", []⟩
        else if isGet req.method && routeMatches "/" req.path then
          ⟨Response.sendFile 200 "index.html", []⟩
        else if req.method == "POST" && routeMatches "/api/contact" req.path then
          postApiContact env sendMail body
        else
          ⟨Response.sendFile 404 "index.html", []⟩

/-! ## The shapes of the specification -/

/-- A character allowed in the parts of an address: not whitespace and not `@`. -/
def plainChar (c : Char) : Prop := isWhiteSpace c = false ∧ c ≠ '@'

/-- The shape `local@domain.tld` in the words of the specification: three non-empty parts
of plain characters around an `@` and a `.`. -/
def SplitShape (s : String) : Prop :=
  ∃ loc dom tld : String, s = loc ++ "@" ++ dom ++ "." ++ tld ∧
    loc ≠ "" ∧ dom ≠ "" ∧ tld ≠ "" ∧
    (∀ c ∈ loc.toList, plainChar c) ∧ (∀ c ∈ dom.toList, plainChar c) ∧
    (∀ c ∈ tld.toList, plainChar c)

/-- The part of a text after its first `@`. -/
def afterAt (cs : List Char) : List Char := (cs.dropWhile (fun c => c != '@')).tail

/-- The same shape told by characters: no whitespace, exactly one `@` that is not the first
character, and after it a `.` that is neither first nor last. -/
def CharShape (s : String) : Prop :=
  (∀ c ∈ s.toList, isWhiteSpace c = false) ∧ s.toList.count '@' = 1 ∧
    s.toList.head? ≠ some '@' ∧
    ∃ i, 0 < i ∧ i + 1 < (afterAt s.toList).length ∧ (afterAt s.toList)[i]? = some '.'

/-- The four properties the handler reads from `req.body`. -/
def contactFields : List String := ["name", "email", "profession", "message"]

/-- The response of the presence check. -/
def fillInAllFields : Response :=
  ⟨400, .json [("success", .bool false), ("message", .string "Please fill in all fields")]⟩

/-- The response of the shape check. -/
def invalidEmail : Response :=
  ⟨400, .json [("success", .bool false),
    ("message", .string "Please enter a valid email address")]⟩

/-- The response after a delivery. -/
def messageSent : Response :=
  ⟨200, .json [("success", .bool true), ("message", .string "Message sent successfully")]⟩

/-- Whether one text occurs inside another, character for character. -/
def occursIn (part whole : String) : Prop := ∃ pre post : String, whole = pre ++ part ++ post

/-- Whether an effect is a `process.exit`. -/
def Effect.isExit : Effect → Bool
  | .exit _ => true
  | _ => false

/-! ## Sample inputs -/

/-- A complete configuration with the given run mode. -/
def sampleEnv (mode : Option String) : Env := fun k =>
  if k = "EMAIL_USER" then some "relay@example.com"
  else if k = "EMAIL_PASS" then some "app-password"
  else if k = "ADMIN_EMAIL" then some "admin@example.com"
  else if k = "NODE_ENV" then mode
  else none

/-- A submission with the four given texts. -/
def submission (name email profession message : String) : Body :=
  [("name", .string name), ("email", .string email), ("profession", .string profession),
   ("message", .string message)]

/-- The submission of Ann with the parsed JSON object `{"toString": "x"}` as its name. -/
def shadowedNameBody : Body :=
  [("name", .object [("toString", .string "x")]), ("email", .string "ann@x.com"),
   ("profession", .string "Eng"), ("message", .string "Hi")]

/-- A mail transport that delivers everything. -/
def delivering : MailOptions → Except JSError Unit := fun _ => .ok ()

/-- A mail transport that rejects everything with the given message. -/
def rejecting (msg : String) : MailOptions → Except JSError Unit := fun _ => .error ⟨msg⟩

/-- A configuration whose `EMAIL_USER` is set to the empty text. -/
def emptyUserEnv : Env := fun k =>
  if k = "EMAIL_USER" then some ""
  else if k = "EMAIL_PASS" then some "app-password"
  else if k = "ADMIN_EMAIL" then some "admin@example.com"
  else none

/-- A configuration without `EMAIL_PASS`. -/
def noPassEnv : Env := fun k =>
  if k = "EMAIL_USER" then some "relay@example.com"
  else if k = "ADMIN_EMAIL" then some "admin@example.com"
  else none

/-- A deployment directory with `index.html`, `contact.html` and `server.js`, as
`express.static` resolves request paths in it. -/
def sampleStatic : String → Option String := fun path =>
  if path = "/" then some "index.html"
  else if path = "/index.html" then some "index.html"
  else if path = "/contact.html" then some "contact.html"
  else if path = "/server.js" then some "server.js"
  else none

/-! ## Lemmas on the matcher -/

theorem accepts_notSpaceOrAt (c : Char) : notSpaceOrAt.accepts c = true ↔ plainChar c := by
  simp [notSpaceOrAt, Atom.accepts, ClassItem.covers, plainChar]

theorem accepts_lit (d c : Char) : (Atom.lit d).accepts c = true ↔ c = d := by
  simp [Atom.accepts]

theorem plusLoop_iff (a : Atom) (k : Nat → List Char → Bool) (i : Nat) (cs : List Char) :
    plusLoop a k i cs = true ↔
      ∃ pre post, cs = pre ++ post ∧ pre ≠ [] ∧ (∀ c ∈ pre, a.accepts c = true) ∧
        k (i + pre.length) post = true := by
  induction cs generalizing i with
  | nil =>
    simp only [plusLoop]
    constructor
    · intro h; cases h
    · rintro ⟨pre, post, h, hne, _, _⟩
      cases pre with
      | nil => exact absurd rfl hne
      | cons _ _ => cases h
  | cons c cs ih =>
    simp only [plusLoop, Bool.and_eq_true, Bool.or_eq_true]
    constructor
    · rintro ⟨hc, h | h⟩
      · obtain ⟨pre, post, rfl, _, hall, hk⟩ := (ih (i + 1)).1 h
        refine ⟨c :: pre, post, rfl, by simp, ?_, ?_⟩
        · intro d hd
          rcases List.mem_cons.1 hd with rfl | hd
          · exact hc
          · exact hall d hd
        · have : i + (c :: pre).length = i + 1 + pre.length := by simp; omega
          rw [this]; exact hk
      · exact ⟨[c], cs, rfl, by simp, by simpa using hc, by simpa using h⟩
    · rintro ⟨pre, post, h, hne, hall, hk⟩
      cases pre with
      | nil => exact absurd rfl hne
      | cons d pre =>
        simp only [List.cons_append, List.cons.injEq] at h
        obtain ⟨rfl, rfl⟩ := h
        refine ⟨hall c (List.mem_cons_self _ _), ?_⟩
        cases pre with
        | nil => right; simpa using hk
        | cons e pre =>
          left
          refine (ih (i + 1)).2 ⟨e :: pre, post, rfl, by simp, ?_, ?_⟩
          · intro x hx; exact hall x (List.mem_cons_of_mem _ hx)
          · have : i + (c :: e :: pre).length = i + 1 + (e :: pre).length := by simp; omega
            rw [← this]; exact hk

theorem searchFrom_emailRegex_succ (i : Nat) (cs : List Char) :
    searchFrom emailRegex (i + 1) cs = false := by
  induction cs generalizing i with
  | nil => simp [searchFrom, emailRegex, matchTerms]
  | cons c cs ih =>
    rw [searchFrom, ih, Bool.or_false]
    simp [emailRegex, matchTerms]

/-- On lists of characters: the pattern matches exactly the split texts. -/
theorem test_iff_split_list (cs : List Char) :
    searchFrom emailRegex 0 cs = true ↔
      ∃ loc dom tld : List Char, cs = loc ++ '@' :: (dom ++ '.' :: tld) ∧
        loc ≠ [] ∧ dom ≠ [] ∧ tld ≠ [] ∧
        (∀ c ∈ loc, plainChar c) ∧ (∀ c ∈ dom, plainChar c) ∧ (∀ c ∈ tld, plainChar c) := by
  have hs : searchFrom emailRegex 0 cs = matchTerms emailRegex 0 cs := by
    cases cs with
    | nil => rfl
    | cons c cs => simp [searchFrom, searchFrom_emailRegex_succ]
  rw [hs]
  simp only [emailRegex, matchTerms, beq_self_eq_true, Bool.true_and, plusLoop_iff,
    accepts_notSpaceOrAt, Bool.and_true]
  constructor
  · rintro ⟨loc, post, rfl, hloc, hlocp, h⟩
    cases post with
    | nil => simp at h
    | cons c post =>
      simp only [Bool.and_eq_true, accepts_lit, plusLoop_iff, accepts_notSpaceOrAt] at h
      obtain ⟨rfl, dom, post2, rfl, hdom, hdomp, h⟩ := h
      cases post2 with
      | nil => simp at h
      | cons d post2 =>
        simp only [Bool.and_eq_true, accepts_lit, plusLoop_iff, accepts_notSpaceOrAt,
          List.isEmpty_eq_true] at h
        obtain ⟨rfl, tld, post3, rfl, htld, htldp, rfl⟩ := h
        exact ⟨loc, dom, tld, by simp, hloc, hdom, htld, hlocp, hdomp, htldp⟩
  · rintro ⟨loc, dom, tld, rfl, hloc, hdom, htld, hlocp, hdomp, htldp⟩
    refine ⟨loc, _, rfl, hloc, hlocp, ?_⟩
    simp only [Bool.and_eq_true, accepts_lit, plusLoop_iff, accepts_notSpaceOrAt, true_and]
    refine ⟨dom, _, rfl, hdom, hdomp, ?_⟩
    simp only [Bool.and_eq_true, accepts_lit, plusLoop_iff, accepts_notSpaceOrAt, true_and,
      List.isEmpty_eq_true]
    exact ⟨tld, [], by simp, htld, htldp, rfl⟩

theorem afterAt_append (l r : List Char) (hl : '@' ∉ l) : afterAt (l ++ '@' :: r) = r := by
  induction l with
  | nil => simp [afterAt, List.dropWhile]
  | cons c l ih =>
    have hc : c ≠ '@' := fun h => hl (h ▸ List.mem_cons_self _ _)
    have hl' : '@' ∉ l := fun h => hl (List.mem_cons_of_mem _ h)
    have hb : (c != '@') = true := by simp [hc]
    have := ih hl'
    simp only [afterAt] at this
    simp only [afterAt, List.cons_append, List.dropWhile_cons, hb, if_true]
    exact this

theorem split_at_first (cs : List Char) (h : '@' ∈ cs) :
    ∃ l r, cs = l ++ '@' :: r ∧ '@' ∉ l := by
  induction cs with
  | nil => cases h
  | cons c cs ih =>
    by_cases hc : c = '@'
    · exact ⟨[], cs, by simp [hc], by simp⟩
    · rcases List.mem_cons.1 h with h | h
      · exact absurd h.symm hc
      · obtain ⟨l, r, rfl, hl⟩ := ih h
        refine ⟨c :: l, r, rfl, ?_⟩
        intro hm
        rcases List.mem_cons.1 hm with hm | hm
        · exact hc hm.symm
        · exact hl hm

/-- On lists of characters: the split texts are exactly the texts of the character shape. -/
theorem split_iff_char_list (cs : List Char) :
    (∃ loc dom tld : List Char, cs = loc ++ '@' :: (dom ++ '.' :: tld) ∧
        loc ≠ [] ∧ dom ≠ [] ∧ tld ≠ [] ∧
        (∀ c ∈ loc, plainChar c) ∧ (∀ c ∈ dom, plainChar c) ∧ (∀ c ∈ tld, plainChar c)) ↔
    ((∀ c ∈ cs, isWhiteSpace c = false) ∧ cs.count '@' = 1 ∧ cs.head? ≠ some '@' ∧
      ∃ i, 0 < i ∧ i + 1 < (afterAt cs).length ∧ (afterAt cs)[i]? = some '.') := by
  constructor
  · rintro ⟨loc, dom, tld, rfl, hloc, hdom, htld, hlocp, hdomp, htldp⟩
    have hl : '@' ∉ loc := fun h => (hlocp _ h).2 rfl
    have hd : '@' ∉ dom := fun h => (hdomp _ h).2 rfl
    have ht : '@' ∉ tld := fun h => (htldp _ h).2 rfl
    refine ⟨?_, ?_, ?_, ?_⟩
    · intro c hc
      simp only [List.mem_append, List.mem_cons] at hc
      rcases hc with hc | rfl | hc | rfl | hc
      · exact (hlocp c hc).1
      · decide
      · exact (hdomp c hc).1
      · decide
      · exact (htldp c hc).1
    · simp [List.count_append, List.count_cons, List.count_eq_zero.2 hl,
        List.count_eq_zero.2 hd, List.count_eq_zero.2 ht]
    · cases loc with
      | nil => exact absurd rfl hloc
      | cons a loc =>
        simp only [List.cons_append, List.head?_cons, ne_eq, Option.some.injEq]
        exact (hlocp a (List.mem_cons_self _ _)).2
    · rw [afterAt_append _ _ hl]
      refine ⟨dom.length, List.length_pos.2 hdom, ?_, ?_⟩
      · have := List.length_pos.2 htld
        simp; omega
      · rw [List.getElem?_append_right (le_refl _)]
        simp
  · rintro ⟨hws, hcount, hhead, i, hi0, hilen, hget⟩
    have hmem : '@' ∈ cs := List.count_pos_iff.1 (by omega)
    obtain ⟨loc, r, rfl, hl⟩ := split_at_first cs hmem
    rw [afterAt_append _ _ hl] at hilen hget
    have hr : '@' ∉ r := by
      have : List.count '@' r = 0 := by
        simp [List.count_append, List.count_cons, List.count_eq_zero.2 hl] at hcount
        exact hcount
      exact List.count_eq_zero.1 this
    have hilt : i < r.length := by omega
    have hsplit : r = r.take i ++ '.' :: r.drop (i + 1) := by
      have hgi : r[i] = '.' := by
        have := List.getElem?_eq_getElem hilt
        rw [this] at hget
        exact Option.some.inj hget
      conv_lhs => rw [← List.take_append_drop i r]
      rw [List.drop_eq_getElem_cons hilt, hgi]
    have hplain : ∀ c ∈ r, plainChar c := fun c hc =>
      ⟨hws c (by simp [hc]), fun h => hr (h ▸ hc)⟩
    refine ⟨loc, r.take i, r.drop (i + 1), ?_, ?_, ?_, ?_, ?_, ?_, ?_⟩
    · rw [← hsplit]
    · rintro rfl
      exact hhead (by simp)
    · intro h
      have := congrArg List.length h
      simp only [List.length_take, List.length_nil] at this
      omega
    · intro h
      have := congrArg List.length h
      simp only [List.length_drop, List.length_nil] at this
      omega
    · intro c hc
      exact ⟨hws c (by simp [hc]), fun h => hl (h ▸ hc)⟩
    · intro c hc
      exact hplain c (List.mem_of_mem_take hc)
    · intro c hc
      exact hplain c (List.mem_of_mem_drop hc)

theorem splitShape_iff_list (s : String) :
    SplitShape s ↔
      ∃ loc dom tld : List Char, s.toList = loc ++ '@' :: (dom ++ '.' :: tld) ∧
        loc ≠ [] ∧ dom ≠ [] ∧ tld ≠ [] ∧
        (∀ c ∈ loc, plainChar c) ∧ (∀ c ∈ dom, plainChar c) ∧ (∀ c ∈ tld, plainChar c) := by
  constructor
  · rintro ⟨loc, dom, tld, rfl, hloc, hdom, htld, h1, h2, h3⟩
    refine ⟨loc.toList, dom.toList, tld.toList, ?_, ?_, ?_, ?_, h1, h2, h3⟩
    · simp [String.toList]
    · intro h; exact hloc (String.ext h)
    · intro h; exact hdom (String.ext h)
    · intro h; exact htld (String.ext h)
  · rintro ⟨loc, dom, tld, h, hloc, hdom, htld, h1, h2, h3⟩
    refine ⟨⟨loc⟩, ⟨dom⟩, ⟨tld⟩, ?_, ?_, ?_, ?_, h1, h2, h3⟩
    · apply String.ext
      simpa [String.toList] using h
    · intro h; exact hloc (congrArg String.data h)
    · intro h; exact hdom (congrArg String.data h)
    · intro h; exact htld (congrArg String.data h)

theorem test_iff_splitShape (s : String) : emailRegex.test s = true ↔ SplitShape s := by
  rw [splitShape_iff_list, ← test_iff_split_list]
  rfl

theorem test_iff_charShape (s : String) : emailRegex.test s = true ↔ CharShape s := by
  rw [test_iff_splitShape, splitShape_iff_list, split_iff_char_list]
  rfl

/-! ## The shape check -/

/-- C3: `emailRegex.test` accepts exactly the texts `local@domain.tld` with three non-empty
parts free of whitespace and `@`; these are exactly the texts without whitespace, with one
`@` that is not the first character and, after it, a `.` that is neither first nor last.
A text with a trailing newline, or with two `@`, is rejected. -/
theorem emailRegex_test_iff_shape (s : String) :
    (emailRegex.test s = true ↔ SplitShape s) ∧
    (emailRegex.test s = true ↔ CharShape s) ∧
    emailRegex.test (s ++ "\n") = false ∧
    (∀ t u : String, emailRegex.test (s ++ "@" ++ t ++ "@" ++ u) = false) := by
  refine ⟨test_iff_splitShape s, test_iff_charShape s, ?_, ?_⟩
  · rw [Bool.eq_false_iff]
    intro h
    have hc := ((test_iff_charShape _).1 h).1 '\n' (by simp [String.toList])
    exact absurd hc (by decide)
  · intro t u
    rw [Bool.eq_false_iff]
    intro h
    have hc := ((test_iff_charShape _).1 h).2.1
    simp [String.toList, List.count_append, List.count_cons] at hc
    omega

/-! ## Lemmas on the handler -/

theorem mailOptions_text (env : Env) (n e p m : String) :
    mailOptions env (.string n) (.string e) (.string p) (.string m) = .ok {
      from_ := env.get "EMAIL_USER"
      to_ := env.get "ADMIN_EMAIL"
      subject := "New Contact Form Submission from " ++ n
      text :=
        "\n                Name: " ++ n ++
        "\n                Email: " ++ e ++
        "\n                Profession: " ++ p ++
        "\n                Message: " ++ m ++
        "\n            "
      html :=
        "\n                <h3>New Contact Form Submission</h3>" ++
        "\n                <p><strong>Name:</strong> " ++ n ++ "</p>" ++
        "\n                <p><strong>Email:</strong> " ++ e ++ "</p>" ++
        "\n                <p><strong>Profession:</strong> " ++ p ++ "</p>" ++
        "\n                <p><strong>Message:</strong> " ++ m ++ "</p>" ++
        "\n            " } := rfl

/-- The handler on a body that fails the presence check. -/
theorem postApiContact_missing (env : Env) (sendMail : MailOptions → Except JSError Unit)
    (body : Body) (field : String) (hfield : field ∈ contactFields)
    (h : (body.get field).toBoolean = false) :
    postApiContact env sendMail body = ⟨fillInAllFields, []⟩ := by
  simp only [contactFields, List.mem_cons, List.mem_singleton, List.not_mem_nil, or_false]
    at hfield
  rcases hfield with rfl | rfl | rfl | rfl <;>
    simp [postApiContact, tryBlock, h, fillInAllFields, Response.json, stringifyMembers,
      JSValue.isUndefined]

/-- The handler on a body whose four fields are texts that pass the presence check. -/
theorem postApiContact_text (env : Env) (sendMail : MailOptions → Except JSError Unit)
    (body : Body) (n e p m : String)
    (hn : body.get "name" = .string n) (he : body.get "email" = .string e)
    (hp : body.get "profession" = .string p) (hm : body.get "message" = .string m)
    (hn0 : n ≠ "") (he0 : e ≠ "") (hp0 : p ≠ "") (hm0 : m ≠ "") :
    postApiContact env sendMail body =
      if emailRegex.test e then
        match mailOptions env (.string n) (.string e) (.string p) (.string m) with
        | .error err => ⟨catchBlock env err, []⟩
        | .ok opts =>
          match sendMail opts with
          | .error err => ⟨catchBlock env err, [opts]⟩
          | .ok _ => ⟨messageSent, [opts]⟩
      else ⟨invalidEmail, []⟩ := by
  have hcond : (!(JSValue.string n).toBoolean || !(JSValue.string e).toBoolean ||
      !(JSValue.string p).toBoolean || !(JSValue.string m).toBoolean) = false := by
    simp [JSValue.toBoolean, hn0, he0, hp0, hm0]
  simp only [postApiContact, tryBlock, hn, he, hp, hm, hcond, JSValue.toStr,
    Bool.false_eq_true, if_false, mailOptions_text]
  cases emailRegex.test e
  · rfl
  · simp only [Bool.not_true, Bool.false_eq_true, if_false, if_true]
    cases sendMail _ <;> rfl

/-- Every run of the handler ends in one of five ways. -/
theorem postApiContact_cases (env : Env) (sendMail : MailOptions → Except JSError Unit)
    (body : Body) :
    (postApiContact env sendMail body = ⟨fillInAllFields, []⟩ ∧
      ∃ f ∈ contactFields, (body.get f).toBoolean = false) ∨
    (postApiContact env sendMail body = ⟨invalidEmail, []⟩ ∧
      (∀ f ∈ contactFields, (body.get f).toBoolean = true) ∧
      ∃ es, (body.get "email").toStr = .ok es ∧ emailRegex.test es = false) ∨
    (∃ err, postApiContact env sendMail body = ⟨catchBlock env err, []⟩ ∧
      (∀ f ∈ contactFields, (body.get f).toBoolean = true)) ∨
    (∃ opts err, postApiContact env sendMail body = ⟨catchBlock env err, [opts]⟩ ∧
      sendMail opts = .error err ∧
      (∀ f ∈ contactFields, (body.get f).toBoolean = true) ∧
      ∃ es, (body.get "email").toStr = .ok es ∧ emailRegex.test es = true) ∨
    (∃ opts, postApiContact env sendMail body = ⟨messageSent, [opts]⟩ ∧
      sendMail opts = .ok () ∧
      (∀ f ∈ contactFields, (body.get f).toBoolean = true) ∧
      ∃ es, (body.get "email").toStr = .ok es ∧ emailRegex.test es = true) := by
  by_cases hall : ∀ f ∈ contactFields, (body.get f).toBoolean = true
  · right
    have h1 := hall "name" (by simp [contactFields])
    have h2 := hall "email" (by simp [contactFields])
    have h3 := hall "profession" (by simp [contactFields])
    have h4 := hall "message" (by simp [contactFields])
    cases hs : (body.get "email").toStr with
    | error err =>
      refine Or.inr (Or.inl ⟨err, ?_, hall⟩)
      simp [postApiContact, tryBlock, h1, h2, h3, h4, hs]
    | ok es =>
      cases ht : emailRegex.test es with
      | false =>
        refine Or.inl ⟨?_, hall, es, rfl, ht⟩
        simp [postApiContact, tryBlock, h1, h2, h3, h4, hs, ht]
        rfl
      | true =>
        right
        cases hmo : mailOptions env (body.get "name") (body.get "email")
            (body.get "profession") (body.get "message") with
        | error err =>
          refine Or.inl ⟨err, ?_, hall⟩
          simp [postApiContact, tryBlock, h1, h2, h3, h4, hs, ht, hmo]
        | ok opts =>
          right
          cases hsm : sendMail opts with
          | error err =>
            refine Or.inl ⟨opts, err, ?_, hsm, hall, es, rfl, ht⟩
            simp [postApiContact, tryBlock, h1, h2, h3, h4, hs, ht, hmo, hsm]
          | ok u =>
            refine Or.inr ⟨opts, ?_, hsm, hall, es, rfl, ht⟩
            simp [postApiContact, tryBlock, h1, h2, h3, h4, hs, ht, hmo, hsm]
            rfl
  · left
    simp only [not_forall, Bool.not_eq_true] at hall
    obtain ⟨f, hf, hfalse⟩ := hall
    exact ⟨postApiContact_missing env sendMail body f hf hfalse, f, hf, hfalse⟩

theorem catchBlock_development (env : Env) (err : JSError)
    (h : env "NODE_ENV" = some "development") :
    catchBlock env err = ⟨500, .json [("success", .bool false),
      ("message", .string "Failed to send message. Please try again later."),
      ("error", .string err.message)]⟩ := by
  simp [catchBlock, Response.json, stringifyMembers, JSValue.isUndefined, h]

theorem catchBlock_other (env : Env) (err : JSError)
    (h : env "NODE_ENV" ≠ some "development") :
    catchBlock env err = ⟨500, .json [("success", .bool false),
      ("message", .string "Failed to send message. Please try again later.")]⟩ := by
  simp [catchBlock, Response.json, stringifyMembers, JSValue.isUndefined, h]

/-- A run that called `sendMail` with `opts` and saw it fail ends in the `catch` block. -/
theorem postApiContact_failed (env : Env) (sendMail : MailOptions → Except JSError Unit)
    (body : Body) (opts : MailOptions) (err : JSError)
    (hsent : opts ∈ (postApiContact env sendMail body).sent)
    (hfail : sendMail opts = .error err) :
    postApiContact env sendMail body = ⟨catchBlock env err, [opts]⟩ := by
  rcases postApiContact_cases env sendMail body with
    ⟨h, _⟩ | ⟨h, _⟩ | ⟨e, h, _⟩ | ⟨o, e, h, hs, _⟩ | ⟨o, h, hs, _⟩
  · rw [h] at hsent; cases hsent
  · rw [h] at hsent; cases hsent
  · rw [h] at hsent; cases hsent
  · rw [h] at hsent
    obtain rfl := List.mem_singleton.1 hsent
    rw [hfail] at hs
    cases hs
    exact h
  · rw [h] at hsent
    obtain rfl := List.mem_singleton.1 hsent
    rw [hfail] at hs
    cases hs

/-! ## The presence check -/

/-- C1: when one of `name`, `email`, `profession`, `message` is absent or the empty text,
the handler answers 400 with exactly `{success: false, message: "Please fill in all fields"}`
and never calls `sendMail`, whatever the other fields hold. -/
theorem missing_field_rejected (env : Env) (sendMail : MailOptions → Except JSError Unit)
    (body : Body) (field : String) (hfield : field ∈ contactFields)
    (hmissing : body.get field = .undefined ∨ body.get field = .string "") :
    (postApiContact env sendMail body).response =
      ⟨400, .json [("success", .bool false), ("message", .string "Please fill in all fields")]⟩ ∧
    (postApiContact env sendMail body).sent = [] := by
  have h : (body.get field).toBoolean = false := by
    rcases hmissing with h | h <;> simp [h, JSValue.toBoolean]
  rw [postApiContact_missing env sendMail body field hfield h]
  exact ⟨rfl, rfl⟩

/-- Witness for C1: an empty name next to a malformed email. -/
theorem missing_field_rejected_witness :
    (postApiContact (sampleEnv none) delivering
        (submission "" "not-an-email" "Eng" "Hi")).response =
      ⟨400, .json [("success", .bool false), ("message", .string "Please fill in all fields")]⟩ ∧
    (postApiContact (sampleEnv none) delivering
        (submission "" "not-an-email" "Eng" "Hi")).sent = [] :=
  missing_field_rejected (sampleEnv none) delivering (submission "" "not-an-email" "Eng" "Hi")
    "name" (by decide) (Or.inr rfl)

/-! ## The shape check in the handler -/

/-- C2: when the four fields are non-empty texts and the email has no `@`, or no `.`, or
holds a whitespace character, the handler answers 400 with exactly
`{success: false, message: "Please enter a valid email address"}` and never calls `sendMail`. -/
theorem malformed_email_rejected (env : Env) (sendMail : MailOptions → Except JSError Unit)
    (body : Body) (n e p m : String)
    (hn : body.get "name" = .string n) (he : body.get "email" = .string e)
    (hp : body.get "profession" = .string p) (hm : body.get "message" = .string m)
    (hn0 : n ≠ "") (he0 : e ≠ "") (hp0 : p ≠ "") (hm0 : m ≠ "")
    (hbad : '@' ∉ e.toList ∨ '.' ∉ e.toList ∨ ∃ c ∈ e.toList, isWhiteSpace c = true) :
    (postApiContact env sendMail body).response =
      ⟨400, .json [("success", .bool false),
        ("message", .string "Please enter a valid email address")]⟩ ∧
    (postApiContact env sendMail body).sent = [] := by
  have ht : emailRegex.test e = false := by
    rw [Bool.eq_false_iff]
    intro h
    obtain ⟨loc, dom, tld, hsplit, -⟩ := (splitShape_iff_list e).1 ((test_iff_splitShape e).1 h)
    rcases hbad with hb | hb | ⟨c, hc, hw⟩
    · exact hb (by rw [hsplit]; simp)
    · exact hb (by rw [hsplit]; simp)
    · have := ((test_iff_charShape e).1 h).1 c hc
      rw [this] at hw
      cases hw
  rw [postApiContact_text env sendMail body n e p m hn he hp hm hn0 he0 hp0 hm0, ht]
  exact ⟨rfl, rfl⟩

/-- Witness for C2: the address `not-an-email`. -/
theorem malformed_email_rejected_witness :
    (postApiContact (sampleEnv none) delivering
        (submission "Ann" "not-an-email" "Eng" "Hi")).response =
      ⟨400, .json [("success", .bool false),
        ("message", .string "Please enter a valid email address")]⟩ ∧
    (postApiContact (sampleEnv none) delivering
        (submission "Ann" "not-an-email" "Eng" "Hi")).sent = [] :=
  malformed_email_rejected (sampleEnv none) delivering
    (submission "Ann" "not-an-email" "Eng" "Hi") "Ann" "not-an-email" "Eng" "Hi"
    rfl rfl rfl rfl (by decide) (by decide) (by decide) (by decide) (Or.inl (by decide))

/-! ## Delivery -/

theorem occursIn_suffix (a x : String) : occursIn x (a ++ x) :=
  ⟨a, "", by simp⟩

theorem occursIn_append_right {x w : String} (b : String) (h : occursIn x w) :
    occursIn x (w ++ b) := by
  obtain ⟨pre, post, rfl⟩ := h
  exact ⟨pre, post ++ b, by simp only [String.append_assoc]⟩


/-- The message the handler builds from four texts. -/
theorem sent_of_text (env : Env) (sendMail : MailOptions → Except JSError Unit)
    (body : Body) (n e p m : String)
    (hn : body.get "name" = .string n) (he : body.get "email" = .string e)
    (hp : body.get "profession" = .string p) (hm : body.get "message" = .string m)
    (hn0 : n ≠ "") (he0 : e ≠ "") (hp0 : p ≠ "") (hm0 : m ≠ "")
    (ht : emailRegex.test e = true) :
    ∃ opts, mailOptions env (.string n) (.string e) (.string p) (.string m) = .ok opts ∧
      (postApiContact env sendMail body).sent = [opts] ∧
      (sendMail opts = .ok () → (postApiContact env sendMail body).response = messageSent) := by
  refine ⟨_, mailOptions_text env n e p m, ?_⟩
  rw [postApiContact_text env sendMail body n e p m hn he hp hm hn0 he0 hp0 hm0, ht]
  simp only [if_true, mailOptions_text]
  cases hs : sendMail _ with
  | error err => exact ⟨rfl, fun h => by cases h⟩
  | ok u => exact ⟨rfl, fun _ => rfl⟩

/-- The message the handler builds from four fields that convert to text. -/
theorem mailOptions_of_texts (env : Env) (vn ve vp vm : JSValue) (n e p m : String)
    (hn : vn.toStr = .ok n) (he : ve.toStr = .ok e) (hp : vp.toStr = .ok p)
    (hm : vm.toStr = .ok m) :
    mailOptions env vn ve vp vm = .ok {
      from_ := env.get "EMAIL_USER"
      to_ := env.get "ADMIN_EMAIL"
      subject := "New Contact Form Submission from " ++ n
      text :=
        "\n                Name: " ++ n ++
        "\n                Email: " ++ e ++
        "\n                Profession: " ++ p ++
        "\n                Message: " ++ m ++
        "\n            "
      html :=
        "\n                <h3>New Contact Form Submission</h3>" ++
        "\n                <p><strong>Name:</strong> " ++ n ++ "</p>" ++
        "\n                <p><strong>Email:</strong> " ++ e ++ "</p>" ++
        "\n                <p><strong>Profession:</strong> " ++ p ++ "</p>" ++
        "\n                <p><strong>Message:</strong> " ++ m ++ "</p>" ++
        "\n            " } := by
  simp only [mailOptions, hn, he, hp, hm]
  rfl

/-- A body that passes both checks and whose message can be built is sent once. -/
theorem sent_of_texts (env : Env) (sendMail : MailOptions → Except JSError Unit)
    (body : Body) (e : String) (opts : MailOptions)
    (hpresent : ∀ f ∈ contactFields, (body.get f).toBoolean = true)
    (he : (body.get "email").toStr = .ok e) (ht : emailRegex.test e = true)
    (hmo : mailOptions env (body.get "name") (body.get "email") (body.get "profession")
      (body.get "message") = .ok opts) :
    (postApiContact env sendMail body).sent = [opts] := by
  have h1 := hpresent "name" (by simp [contactFields])
  have h2 := hpresent "email" (by simp [contactFields])
  have h3 := hpresent "profession" (by simp [contactFields])
  have h4 := hpresent "message" (by simp [contactFields])
  cases hsm : sendMail opts <;>
    simp [postApiContact, tryBlock, h1, h2, h3, h4, he, ht, hmo, hsm]

/-- Counterexample to C4: with the parsed object `{"toString": "x"}` as name, all four
fields are present and pass the presence check and the email has the accepted shape, yet
the template literal throws, `sendMail` is never called and the answer is 500. -/
theorem delivery_message_counterexample :
    shadowedNameBody.get "name" = .object [("toString", .string "x")] ∧
    (∀ f ∈ contactFields, (shadowedNameBody.get f).toBoolean = true) ∧
    shadowedNameBody.get "email" = .string "ann@x.com" ∧
    emailRegex.test "ann@x.com" = true ∧
    (postApiContact (sampleEnv none) delivering shadowedNameBody).sent = [] ∧
    (postApiContact (sampleEnv none) delivering shadowedNameBody).response =
      ⟨500, .json [("success", .bool false),
        ("message", .string "Failed to send message. Please try again later.")]⟩ :=
  ⟨rfl, by decide, rfl, by decide, rfl, rfl⟩

/-- C4 as amended: when the four fields pass the presence check, each converts to text
without throwing and the text of the email has the accepted shape, the handler calls
`sendMail` exactly once, with `from` the configured `EMAIL_USER`, `to` the configured
`ADMIN_EMAIL`, the subject `New Contact Form Submission from ` followed by the text of
the name, and a plain-text and an HTML body that each hold the four texts character for
character; the text of a field that is a string is that string itself. -/
theorem delivery_message (env : Env) (sendMail : MailOptions → Except JSError Unit)
    (body : Body) (n e p m : String)
    (hpresent : ∀ f ∈ contactFields, (body.get f).toBoolean = true)
    (hn : (body.get "name").toStr = .ok n) (he : (body.get "email").toStr = .ok e)
    (hp : (body.get "profession").toStr = .ok p) (hm : (body.get "message").toStr = .ok m)
    (ht : emailRegex.test e = true) :
    (∃ opts, (postApiContact env sendMail body).sent = [opts] ∧
      opts.from_ = env.get "EMAIL_USER" ∧ opts.to_ = env.get "ADMIN_EMAIL" ∧
      opts.subject = "New Contact Form Submission from " ++ n ∧
      (occursIn n opts.text ∧ occursIn e opts.text ∧ occursIn p opts.text ∧
        occursIn m opts.text) ∧
      (occursIn n opts.html ∧ occursIn e opts.html ∧ occursIn p opts.html ∧
        occursIn m opts.html)) ∧
    ((∀ s, body.get "name" = .string s → n = s) ∧
      (∀ s, body.get "email" = .string s → e = s) ∧
      (∀ s, body.get "profession" = .string s → p = s) ∧
      (∀ s, body.get "message" = .string s → m = s)) := by
  have hmo := mailOptions_of_texts env _ _ _ _ n e p m hn he hp hm
  have hsent := sent_of_texts env sendMail body e _ hpresent he ht hmo
  have hstr : ∀ (v : JSValue) (t s : String), v.toStr = .ok t → v = .string s → t = s := by
    intro v t s hv hs
    rw [hs] at hv
    simp only [JSValue.toStr, Except.ok.injEq] at hv
    exact hv.symm
  refine ⟨⟨_, hsent, rfl, rfl, rfl, ⟨?_, ?_, ?_, ?_⟩, ⟨?_, ?_, ?_, ?_⟩⟩,
    fun s => hstr _ n s hn, fun s => hstr _ e s he, fun s => hstr _ p s hp,
    fun s => hstr _ m s hm⟩ <;>
    repeat (first | exact occursIn_suffix _ _ | apply occursIn_append_right)

/-- Witness for the amended C4: the submission of Ann. -/
theorem delivery_message_witness :
    ∃ opts, (postApiContact (sampleEnv none) delivering
        (submission "Ann" "ann@x.com" "Eng" "Hi")).sent = [opts] ∧
      opts.from_ = (sampleEnv none).get "EMAIL_USER" ∧
      opts.to_ = (sampleEnv none).get "ADMIN_EMAIL" ∧
      opts.subject = "New Contact Form Submission from " ++ "Ann" ∧
      (occursIn "Ann" opts.text ∧ occursIn "ann@x.com" opts.text ∧ occursIn "Eng" opts.text ∧
        occursIn "Hi" opts.text) ∧
      (occursIn "Ann" opts.html ∧ occursIn "ann@x.com" opts.html ∧ occursIn "Eng" opts.html ∧
        occursIn "Hi" opts.html) :=
  (delivery_message (sampleEnv none) delivering (submission "Ann" "ann@x.com" "Eng" "Hi")
    "Ann" "ann@x.com" "Eng" "Hi" (by decide) rfl rfl rfl rfl (by decide)).1

/-! ## Delivery failure -/

/-- C5: when `sendMail` was called and failed, the handler answers 500 with
`success: false` and the fixed message, that call was the only call of `sendMail`, and the
serialized body holds an `error` member, the failure's message, exactly when `NODE_ENV` is
`development`; in every other run mode the body is the same two members for every failure. -/
theorem delivery_failure_response (env : Env)
    (sendMail : MailOptions → Except JSError Unit) (body : Body) (opts : MailOptions)
    (err : JSError) (hsent : opts ∈ (postApiContact env sendMail body).sent)
    (hfail : sendMail opts = .error err) :
    (postApiContact env sendMail body).response.status = 500 ∧
    (postApiContact env sendMail body).sent = [opts] ∧
    (env "NODE_ENV" = some "development" →
      (postApiContact env sendMail body).response.body =
        .json [("success", .bool false),
          ("message", .string "Failed to send message. Please try again later."),
          ("error", .string err.message)]) ∧
    (env "NODE_ENV" ≠ some "development" →
      (postApiContact env sendMail body).response.body =
        .json [("success", .bool false),
          ("message", .string "Failed to send message. Please try again later.")]) := by
  rw [postApiContact_failed env sendMail body opts err hsent hfail]
  refine ⟨rfl, rfl, ?_, ?_⟩
  · intro h; simp only [catchBlock_development env err h]
  · intro h; simp only [catchBlock_other env err h]

/-- Witness for C5: a rejected login in development mode. -/
theorem delivery_failure_response_witness :
    (postApiContact (sampleEnv (some "development")) (rejecting "Invalid login")
        (submission "Ann" "ann@x.com" "Eng" "Hi")).response.body =
      .json [("success", .bool false),
        ("message", .string "Failed to send message. Please try again later."),
        ("error", .string "Invalid login")] :=
  (delivery_failure_response (sampleEnv (some "development")) (rejecting "Invalid login")
    (submission "Ann" "ann@x.com" "Eng" "Hi") _ ⟨"Invalid login"⟩
    (List.mem_singleton.2 rfl) rfl).2.2.1 rfl

/-- Counterexample to C6: in run mode `test`, and with no run mode set, a failed delivery
is answered without an `error` member. -/
theorem error_detail_outside_production_counterexample :
    sampleEnv (some "test") "NODE_ENV" ≠ some "production" ∧
    (postApiContact (sampleEnv (some "test")) (rejecting "Invalid login")
        (submission "Ann" "ann@x.com" "Eng" "Hi")).sent.length = 1 ∧
    (postApiContact (sampleEnv (some "test")) (rejecting "Invalid login")
        (submission "Ann" "ann@x.com" "Eng" "Hi")).response =
      ⟨500, .json [("success", .bool false),
        ("message", .string "Failed to send message. Please try again later.")]⟩ ∧
    sampleEnv none "NODE_ENV" ≠ some "production" ∧
    (postApiContact (sampleEnv none) (rejecting "Invalid login")
        (submission "Ann" "ann@x.com" "Eng" "Hi")).response =
      ⟨500, .json [("success", .bool false),
        ("message", .string "Failed to send message. Please try again later.")]⟩ :=
  ⟨by decide, rfl, rfl, by decide, rfl⟩

/-- C6 as amended: after a failed delivery the 500 response holds an `error` member with the
failure's message when `NODE_ENV` is `development`; in production, and in every other run
mode (an unset one and `test` included), the member is left out. -/
theorem error_detail_only_in_development (env : Env)
    (sendMail : MailOptions → Except JSError Unit) (body : Body) (opts : MailOptions)
    (err : JSError) (hsent : opts ∈ (postApiContact env sendMail body).sent)
    (hfail : sendMail opts = .error err) :
    (env "NODE_ENV" = some "development" →
      (postApiContact env sendMail body).response =
        ⟨500, .json [("success", .bool false),
          ("message", .string "Failed to send message. Please try again later."),
          ("error", .string err.message)]⟩) ∧
    (env "NODE_ENV" = some "production" →
      (postApiContact env sendMail body).response =
        ⟨500, .json [("success", .bool false),
          ("message", .string "Failed to send message. Please try again later.")]⟩) ∧
    (env "NODE_ENV" ≠ some "development" →
      (postApiContact env sendMail body).response =
        ⟨500, .json [("success", .bool false),
          ("message", .string "Failed to send message. Please try again later.")]⟩) := by
  rw [postApiContact_failed env sendMail body opts err hsent hfail]
  refine ⟨fun h => catchBlock_development env err h, fun h => catchBlock_other env err ?_,
    fun h => catchBlock_other env err h⟩
  rw [h]; decide

/-- Witness for the amended C6: a rejected login in production mode. -/
theorem error_detail_only_in_development_witness :
    (postApiContact (sampleEnv (some "production")) (rejecting "Invalid login")
        (submission "Ann" "ann@x.com" "Eng" "Hi")).response =
      ⟨500, .json [("success", .bool false),
        ("message", .string "Failed to send message. Please try again later.")]⟩ :=
  (error_detail_only_in_development (sampleEnv (some "production")) (rejecting "Invalid login")
    (submission "Ann" "ann@x.com" "Eng" "Hi") _ ⟨"Invalid login"⟩
    (List.mem_singleton.2 rfl) rfl).2.1 rfl

/-! ## Success -/

/-- C7: a submission of four non-empty texts with an email of the accepted shape, for which
`sendMail` resolves, is answered 200 with exactly
`{success: true, message: "Message sent successfully"}`, and so is every request whose
`sendMail` call resolved; a 200 is sent only when all four
fields passed the presence check (none absent, none empty), the email passed the shape check
and `sendMail` resolved; and the status is always 200, 400 or 500. -/
theorem success_response (env : Env) (sendMail : MailOptions → Except JSError Unit)
    (body : Body) :
    (∀ (n e p m : String) (opts : MailOptions),
      body.get "name" = .string n → body.get "email" = .string e →
      body.get "profession" = .string p → body.get "message" = .string m →
      n ≠ "" → e ≠ "" → p ≠ "" → m ≠ "" → emailRegex.test e = true →
      mailOptions env (.string n) (.string e) (.string p) (.string m) = .ok opts →
      sendMail opts = .ok () →
      (postApiContact env sendMail body).response =
        ⟨200, .json [("success", .bool true),
          ("message", .string "Message sent successfully")]⟩) ∧
    (∀ opts ∈ (postApiContact env sendMail body).sent, sendMail opts = .ok () →
      (postApiContact env sendMail body).response =
        ⟨200, .json [("success", .bool true),
          ("message", .string "Message sent successfully")]⟩) ∧
    ((postApiContact env sendMail body).response.status = 200 →
      (∀ f ∈ contactFields, (body.get f).toBoolean = true ∧ body.get f ≠ .undefined ∧
        body.get f ≠ .string "") ∧
      (∃ es, (body.get "email").toStr = .ok es ∧ emailRegex.test es = true) ∧
      ∃ opts, (postApiContact env sendMail body).sent = [opts] ∧ sendMail opts = .ok ()) ∧
    ((postApiContact env sendMail body).response.status = 200 ∨
      (postApiContact env sendMail body).response.status = 400 ∨
      (postApiContact env sendMail body).response.status = 500) := by
  refine ⟨?_, ?_, ?_, ?_⟩
  · intro n e p m opts hn he hp hm hn0 he0 hp0 hm0 ht hopts hok
    obtain ⟨opts', hopts', -, hres⟩ :=
      sent_of_text env sendMail body n e p m hn he hp hm hn0 he0 hp0 hm0 ht
    rw [hopts] at hopts'
    cases hopts'
    exact hres hok
  · intro opts hmem hok
    rcases postApiContact_cases env sendMail body with
      ⟨h, _⟩ | ⟨h, _⟩ | ⟨e, h, _⟩ | ⟨o, e, h, hs, _⟩ | ⟨o, h, _⟩
    · rw [h] at hmem; cases hmem
    · rw [h] at hmem; cases hmem
    · rw [h] at hmem; cases hmem
    · rw [h] at hmem
      obtain rfl := List.mem_singleton.1 hmem
      rw [hok] at hs
      cases hs
    · rw [h]; rfl
  · intro hstatus
    rcases postApiContact_cases env sendMail body with
      ⟨h, _⟩ | ⟨h, _⟩ | ⟨e, h, _⟩ | ⟨o, e, h, _⟩ | ⟨o, h, hs, hall, hes⟩
    · rw [h] at hstatus; cases hstatus
    · rw [h] at hstatus; cases hstatus
    · rw [h] at hstatus; cases hstatus
    · rw [h] at hstatus; cases hstatus
    · refine ⟨fun f hf => ⟨hall f hf, ?_, ?_⟩, hes, o, by rw [h], hs⟩
      · intro hu
        have := hall f hf
        rw [hu] at this
        cases this
      · intro hu
        have := hall f hf
        rw [hu] at this
        cases this
  · rcases postApiContact_cases env sendMail body with
      ⟨h, _⟩ | ⟨h, _⟩ | ⟨e, h, _⟩ | ⟨o, e, h, _⟩ | ⟨o, h, _⟩
    · rw [h]; exact Or.inr (Or.inl rfl)
    · rw [h]; exact Or.inr (Or.inl rfl)
    · rw [h]; exact Or.inr (Or.inr rfl)
    · rw [h]; exact Or.inr (Or.inr rfl)
    · rw [h]; exact Or.inl rfl

/-- Witness for C7: the submission of Ann with a working mail service. -/
theorem success_response_witness :
    (postApiContact (sampleEnv none) delivering
        (submission "Ann" "ann@x.com" "Eng" "Hi")).response =
      ⟨200, .json [("success", .bool true),
        ("message", .string "Message sent successfully")]⟩ ∧
    ∃ opts, (postApiContact (sampleEnv none) delivering
        (submission "Ann" "ann@x.com" "Eng" "Hi")).sent = [opts] ∧ delivering opts = .ok () :=
  ⟨(success_response (sampleEnv none) delivering (submission "Ann" "ann@x.com" "Eng" "Hi")).1
      "Ann" "ann@x.com" "Eng" "Hi" _ rfl rfl rfl rfl (by decide) (by decide) (by decide)
      (by decide) (by decide) (mailOptions_text _ _ _ _ _) rfl,
    ((success_response (sampleEnv none) delivering
      (submission "Ann" "ann@x.com" "Eng" "Hi")).2.2.1 rfl).2.2⟩

/-! ## Truthiness of the presence check -/

/-- C10: the presence check is JavaScript truthiness without trimming.  When the four fields
are non-empty texts, the email has the accepted shape and the name, the profession or the
message is whitespace only, the check passes and `sendMail` is called once, with the subject
built from the untrimmed name; and a field whose value is `0`, `false` or `null` counts as
missing and gets the 400 `Please fill in all fields`. -/
theorem presence_is_truthiness (env : Env) (sendMail : MailOptions → Except JSError Unit)
    (body : Body) :
    (∀ n e p m : String,
      body.get "name" = .string n → body.get "email" = .string e →
      body.get "profession" = .string p → body.get "message" = .string m →
      n ≠ "" → e ≠ "" → p ≠ "" → m ≠ "" → emailRegex.test e = true →
      ((∀ c ∈ n.toList, isWhiteSpace c = true) ∨ (∀ c ∈ p.toList, isWhiteSpace c = true) ∨
        (∀ c ∈ m.toList, isWhiteSpace c = true)) →
      (∀ f ∈ contactFields, (body.get f).toBoolean = true) ∧
      ∃ opts, (postApiContact env sendMail body).sent = [opts] ∧
        opts.subject = "New Contact Form Submission from " ++ n) ∧
    (∀ field ∈ contactFields,
      (body.get field = .number 0 (by decide) ∨ body.get field = .bool false ∨
        body.get field = .null) →
      (postApiContact env sendMail body).response =
        ⟨400, .json [("success", .bool false),
          ("message", .string "Please fill in all fields")]⟩ ∧
      (postApiContact env sendMail body).sent = []) := by
  constructor
  · intro n e p m hn he hp hm hn0 he0 hp0 hm0 ht _
    constructor
    · intro f hf
      simp only [contactFields, List.mem_cons, List.mem_singleton, List.not_mem_nil,
        or_false] at hf
      rcases hf with rfl | rfl | rfl | rfl
      · rw [hn]; simp [JSValue.toBoolean, hn0]
      · rw [he]; simp [JSValue.toBoolean, he0]
      · rw [hp]; simp [JSValue.toBoolean, hp0]
      · rw [hm]; simp [JSValue.toBoolean, hm0]
    · obtain ⟨opts, hopts, hsent, -⟩ :=
        sent_of_text env sendMail body n e p m hn he hp hm hn0 he0 hp0 hm0 ht
      rw [mailOptions_text] at hopts
      cases hopts
      exact ⟨_, hsent, rfl⟩
  · intro field hfield hval
    have h : (body.get field).toBoolean = false := by
      rcases hval with h | h | h <;> simp [h, JSValue.toBoolean]
    rw [postApiContact_missing env sendMail body field hfield h]
    exact ⟨rfl, rfl⟩

/-- Witness for C10: a name of one space is delivered, a name of `0` is not. -/
theorem presence_is_truthiness_witness :
    (∃ opts, (postApiContact (sampleEnv none) delivering
        (submission " " "ann@x.com" "Eng" "Hi")).sent = [opts] ∧
      opts.subject = "New Contact Form Submission from " ++ " ") ∧
    (postApiContact (sampleEnv none) delivering
        [("name", .number 0 (by decide)), ("email", .string "ann@x.com"), ("profession", .string "Eng"),
         ("message", .string "Hi")]).sent = [] :=
  ⟨((presence_is_truthiness (sampleEnv none) delivering
      (submission " " "ann@x.com" "Eng" "Hi")).1 " " "ann@x.com" "Eng" "Hi" rfl rfl rfl rfl
      (by decide) (by decide) (by decide) (by decide) (by decide)
      (Or.inl (by decide))).2,
   ((presence_is_truthiness (sampleEnv none) delivering
      [("name", .number 0 (by decide)), ("email", .string "ann@x.com"), ("profession", .string "Eng"),
       ("message", .string "Hi")]).2 "name" (by decide) (Or.inl rfl)).2⟩

/-! ## Start-up -/

theorem env_falsy_iff (env : Env) (v : String) :
    (env.get v).toBoolean = false ↔ (env v = none ∨ env v = some "") := by
  unfold Env.get
  cases h : env v with
  | none => simp [JSValue.toBoolean]
  | some s => simp [JSValue.toBoolean]

theorem mem_missingEnvVars (env : Env) (v : String) :
    v ∈ missingEnvVars env ↔ v ∈ requiredEnvVars ∧ (env v = none ∨ env v = some "") := by
  simp only [missingEnvVars, List.mem_filter, Bool.not_eq_true', env_falsy_iff]

theorem missingEnvVars_nodup (env : Env) : (missingEnvVars env).Nodup := by
  have h : requiredEnvVars.Nodup := by decide
  exact h.filter _

/-- Counterexample to C8: with all three variables set, `EMAIL_USER` to the empty text,
start-up still reports `EMAIL_USER` and exits with code 1. -/
theorem startup_exit_counterexample :
    (∀ v ∈ requiredEnvVars, emptyUserEnv v ≠ none) ∧
    startup emptyUserEnv =
      [.consoleError "Missing required environment variables:" ["EMAIL_USER"], .exit 1] :=
  ⟨by decide, rfl⟩

/-- C8 as amended: when one of `EMAIL_USER`, `EMAIL_PASS`, `ADMIN_EMAIL` is absent or
empty, start-up prints the missing names and exits with code 1, and does nothing else (no
transporter, no verification, no listening); the names printed are exactly the required
names that are absent or empty, each once, and depend on no value; when all three are
present and non-empty start-up does not exit and goes on to listen. -/
theorem startup_checks_configuration (env : Env) :
    ((∃ v ∈ requiredEnvVars, env v = none ∨ env v = some "") →
      startup env =
        [.consoleError "Missing required environment variables:" (missingEnvVars env),
         .exit 1]) ∧
    (∀ v, v ∈ missingEnvVars env ↔
      v ∈ requiredEnvVars ∧ (env v = none ∨ env v = some "")) ∧
    (missingEnvVars env).Nodup ∧
    (∀ env' : Env,
      (∀ v ∈ requiredEnvVars,
        (env v = none ∨ env v = some "") ↔ (env' v = none ∨ env' v = some "")) →
      missingEnvVars env' = missingEnvVars env) ∧
    ((∀ v ∈ requiredEnvVars, ∃ s, env v = some s ∧ s ≠ "") →
      (∀ ev ∈ startup env, ev.isExit = false) ∧
      startup env =
        [.consoleLog "Email Configuration:"
           [("user", env.get "EMAIL_USER"), ("adminEmail", env.get "ADMIN_EMAIL"),
            ("hasPassword", .bool true)],
         .createTransport (env.get "EMAIL_USER") (env.get "EMAIL_PASS"),
         .verify,
         .listen (port env)]) := by
  refine ⟨?_, mem_missingEnvVars env, missingEnvVars_nodup env, ?_, ?_⟩
  · rintro ⟨v, hv, hmiss⟩
    have hmem : v ∈ missingEnvVars env := (mem_missingEnvVars env v).2 ⟨hv, hmiss⟩
    have hpos : (missingEnvVars env).length > 0 := List.length_pos_of_mem hmem
    simp [startup, hpos]
  · intro env' h
    unfold missingEnvVars
    apply List.filter_congr
    intro v hv
    have h1 := env_falsy_iff env v
    have h2 := env_falsy_iff env' v
    have h3 := h v hv
    cases ha : (env.get v).toBoolean <;> cases hb : (env'.get v).toBoolean <;> simp_all
  · intro hall
    have hnil : missingEnvVars env = [] := by
      apply List.eq_nil_iff_forall_not_mem.2
      intro v hv
      obtain ⟨hreq, hmiss⟩ := (mem_missingEnvVars env v).1 hv
      obtain ⟨s, hs, hs0⟩ := hall v hreq
      rcases hmiss with h | h
      · rw [hs] at h; cases h
      · rw [hs] at h; exact hs0 (Option.some.inj h)
    have hpass : (env.get "EMAIL_PASS").toBoolean = true := by
      obtain ⟨s, hs, hs0⟩ := hall "EMAIL_PASS" (by decide)
      simp [Env.get, hs, JSValue.toBoolean, hs0]
    have hst : startup env =
        [.consoleLog "Email Configuration:"
           [("user", env.get "EMAIL_USER"), ("adminEmail", env.get "ADMIN_EMAIL"),
            ("hasPassword", .bool true)],
         .createTransport (env.get "EMAIL_USER") (env.get "EMAIL_PASS"),
         .verify,
         .listen (port env)] := by
      simp [startup, hnil, hpass]
    refine ⟨?_, hst⟩
    rw [hst]
    intro ev hev
    simp only [List.mem_cons, List.mem_singleton, List.not_mem_nil, or_false] at hev
    rcases hev with rfl | rfl | rfl | rfl <;> rfl

/-- Witness for the amended C8: no `EMAIL_PASS`, then a complete configuration. -/
theorem startup_checks_configuration_witness :
    startup noPassEnv =
      [.consoleError "Missing required environment variables:" (missingEnvVars noPassEnv),
       .exit 1] ∧
    (∀ ev ∈ startup (sampleEnv none), ev.isExit = false) :=
  ⟨(startup_checks_configuration noPassEnv).1 ⟨"EMAIL_PASS", by decide, Or.inl rfl⟩,
   ((startup_checks_configuration (sampleEnv none)).2.2.2.2 (by
      intro v hv
      simp only [requiredEnvVars, List.mem_cons, List.mem_singleton, List.not_mem_nil,
        or_false] at hv
      rcases hv with rfl | rfl | rfl
      · exact ⟨"relay@example.com", rfl, by decide⟩
      · exact ⟨"app-password", rfl, by decide⟩
      · exact ⟨"admin@example.com", rfl, by decide⟩)).1⟩

/-! ## Routing -/

/-- Counterexample to C9: `GET /contact.html` is none of the three routes, yet it is
answered by `express.static` with the contact page and 200; and `OPTIONS` on an undefined
path is answered by `cors` with 204 and no page. -/
theorem fallback_counterexample :
    (app sampleStatic (sampleEnv none) delivering ⟨"GET", "/contact.html", .ok []⟩).response =
      ⟨200, .file "contact.html"⟩ ∧
    (app sampleStatic (sampleEnv none) delivering ⟨"OPTIONS", "/nowhere", .ok []⟩).response =
      ⟨204, .empty⟩ :=
  ⟨rfl, rfl⟩

/-- C9 as amended: a request that `cors` does not answer as a preflight, whose body the
parsers accept, that `express.static` does not resolve to a file, and that matches none of
the three routes is answered with `index.html` and 404; `GET /` is answered with
`index.html` and 200, and `GET /contact` with `contact.html` and 200 when the deployment
directory holds no file named `contact`. -/
theorem fallback_serves_index (staticFile : String → Option String) (env : Env)
    (sendMail : MailOptions → Except JSError Unit) :
    (∀ (req : Request) (body : Body),
      req.method ≠ "OPTIONS" → req.body = .ok body →
      (isGet req.method = true → staticFile req.path = none) →
      ¬ (isGet req.method = true ∧ routeMatches "/contact" req.path = true) →
      ¬ (isGet req.method = true ∧ routeMatches "/" req.path = true) →
      ¬ (req.method = "POST" ∧ routeMatches "/api/contact" req.path = true) →
      (app staticFile env sendMail req).response = ⟨404, .file "index.html"⟩ ∧
      (app staticFile env sendMail req).sent = []) ∧
    (∀ body : Body, (staticFile "/" = none ∨ staticFile "/" = some "index.html") →
      (app staticFile env sendMail ⟨"GET", "/", .ok body⟩).response =
        ⟨200, .file "index.html"⟩) ∧
    (∀ body : Body, staticFile "/contact" = none →
      (app staticFile env sendMail ⟨"GET", "/contact", .ok body⟩).response =
        ⟨200, .file "contact.html"⟩) := by
  refine ⟨?_, ?_, ?_⟩
  · intro req body hopt hbody hstatic h1 h2 h3
    have hs : (if isGet req.method = true then staticFile req.path else none) = none := by
      by_cases hg : isGet req.method = true
      · simp [hg, hstatic hg]
      · simp [hg]
    have e1 : (isGet req.method && routeMatches "/contact" req.path) = false := by
      rw [Bool.eq_false_iff]; simpa using h1
    have e2 : (isGet req.method && routeMatches "/" req.path) = false := by
      rw [Bool.eq_false_iff]; simpa using h2
    have e3 : (req.method == "POST" && routeMatches "/api/contact" req.path) = false := by
      rw [Bool.eq_false_iff]; simpa using h3
    have e0 : (req.method == "OPTIONS") = false := by simpa using hopt
    simp only [app, e0, hbody, hs, e1, e2, e3, Bool.false_eq_true, if_false]
    constructor <;> first | rfl | trivial
  · intro body h
    have hr : routeMatches "/contact" "/" = false := by decide
    have hr2 : routeMatches "/" "/" = true := by decide
    have hg : isGet "GET" = true := by decide
    have e0 : ("GET" == "OPTIONS") = false := by decide
    rcases h with h | h <;> simp [app, h, hr, hr2, hg, e0, Response.sendFile]
  · intro body h
    have hr : routeMatches "/contact" "/contact" = true := by decide
    have hg : isGet "GET" = true := by decide
    have e0 : ("GET" == "OPTIONS") = false := by decide
    simp [app, h, hr, hg, e0, Response.sendFile]

/-- Witness for the amended C9: `DELETE /nowhere` falls through to the last handler. -/
theorem fallback_serves_index_witness :
    (app sampleStatic (sampleEnv none) delivering ⟨"DELETE", "/nowhere", .ok []⟩).response =
      ⟨404, .file "index.html"⟩ ∧
    (app sampleStatic (sampleEnv none) delivering ⟨"GET", "/", .ok []⟩).response =
      ⟨200, .file "index.html"⟩ :=
  ⟨((fallback_serves_index sampleStatic (sampleEnv none) delivering).1
      ⟨"DELETE", "/nowhere", .ok []⟩ [] (by decide) rfl (by decide) (by decide) (by decide)
      (by decide)).1,
   (fallback_serves_index sampleStatic (sampleEnv none) delivering).2.1 [] (Or.inr rfl)⟩

end Coinlinc
